import Mathlib

/-
Verification of the terminal snake game (src/snake.cpp) against its
natural-language specification.

The game state and the per-tick update are embedded shallowly:

  * coordinates are Int pairs (the C++ code uses int and lets the head
    coordinate go negative or past the border before checking);
  * the snake is a head-first List of positions (std::vector with
    insert-at-begin and pop_back);
  * the pseudo-random source std::rand is modelled by explicit Nat
    arguments r1, r2 supplied to each tick: the code computes
    rand()%width and rand()%height from them;
  * pending keyboard bytes for a tick are modelled as the List Char the
    two read() calls would consume (empty list = kbhit() false).

All definitions below are translated from src/snake.cpp; the few
definitions whose name ends in Spec are transcriptions of the
specification's words, used to compare code behaviour with the spec.
-/

namespace Snake

/-- Playing-field width (const int width = 20). -/
def width : Int := 20

/-- Playing-field height (const int height = 20). -/
def height : Int := 20

/-- The mutable state of the game loop: the snake body (head first),
the direction code (1=left, 2=right, 3=up, 4=down), the fruit position
and the gameOver flag. -/
structure GameState where
  snake : List (Int × Int)
  dir : Int
  fruit : Int × Int
  gameOver : Bool
deriving DecidableEq

/-- Input handling for one tick (snake.cpp lines 102-117): if a byte is
pending and it is ESC, two further bytes are read; a full sequence
ESC '[' followed by A/B/C/D selects direction 3/4/2/1; anything else
leaves the direction unchanged. -/
def decodeInput (dir : Int) (pending : List Char) : Int :=
  match pending with
  | [] => dir
  | c :: rest =>
    if c = '\x1b' then
      match rest with
      | a :: b :: _ =>
        if a = '[' then
          if b = 'A' then 3
          else if b = 'B' then 4
          else if b = 'C' then 2
          else if b = 'D' then 1
          else dir
        else dir
      | _ => dir
    else dir

/-- One cell of movement in the given direction (the switch on dir in
snake.cpp lines 123-128); an out-of-range code moves nowhere, as the
switch has no default case. -/
def moveHead (dir : Int) (h : Int × Int) : Int × Int :=
  if dir = 1 then (h.1 - 1, h.2)
  else if dir = 2 then (h.1 + 1, h.2)
  else if dir = 3 then (h.1, h.2 - 1)
  else if dir = 4 then (h.1, h.2 + 1)
  else h

/-- The position the new head will occupy on a tick: the current head
(snake.front()) moved once in the direction current after input
handling. -/
def newHeadOf (s : GameState) (pending : List Char) : Int × Int :=
  moveHead (decodeInput s.dir pending) s.snake.headI

/-- Wall collision test (snake.cpp lines 136-137). -/
def wallHit (h : Int × Int) : Prop :=
  h.1 ≤ 0 ∨ h.1 ≥ width - 1 ∨ h.2 ≤ 0 ∨ h.2 ≥ height - 1

instance (h : Int × Int) : Decidable (wallHit h) := by
  unfold wallHit; exact inferInstance

/-- The fruit position produced by one respawn:
(rand()%width, rand()%height) with the two rand() draws given
explicitly (snake.cpp line 146). -/
def newFruit (r1 r2 : Nat) : Int × Int :=
  (((r1 % width.toNat : Nat) : Int), ((r2 % height.toNat : Nat) : Int))

/-- One iteration of the update part of the loop body
(snake.cpp lines 102-150): decode input, move the head, prepend it,
set gameOver on wall or self collision (a self collision is a match at
index at least 1 of the extended snake, i.e. membership in the
pre-tick snake), then either respawn the fruit (head on fruit; no tail
removal) or pop the tail. -/
def stepTick (s : GameState) (pending : List Char) (r1 r2 : Nat) : GameState :=
  let dir := decodeInput s.dir pending
  let head := moveHead dir s.snake.headI
  let over := s.gameOver || decide (wallHit head) || decide (head ∈ s.snake)
  if head = s.fruit then
    { snake := head :: s.snake, dir := dir, fruit := newFruit r1 r2, gameOver := over }
  else
    { snake := (head :: s.snake).dropLast, dir := dir, fruit := s.fruit, gameOver := over }

/-- The state built before the loop starts (snake.cpp lines 57-67):
a one-segment snake at the grid centre, moving right, fruit at a
pseudo-random cell of the whole grid, game not over. -/
def initState (r1 r2 : Nat) : GameState :=
  { snake := [(width / 2, height / 2)]
  , dir := 2
  , fruit := newFruit r1 r2
  , gameOver := false }

/-- States the game loop can be in at the top of a tick: the start
state, or the result of a tick taken from a reachable state the game
had survived. -/
inductive Reachable : GameState → Prop
  | init (r1 r2 : Nat) : Reachable (initState r1 r2)
  | step (s : GameState) (pending : List Char) (r1 r2 : Nat) :
      Reachable s → s.gameOver = false → Reachable (stepTick s pending r1 r2)

/-- n ticks with a fixed input and random draw, used to exhibit
concrete reachable states. -/
def iterTick (pending : List Char) (r1 r2 : Nat) : Nat → GameState → GameState
  | 0, s => s
  | n + 1, s => stepTick (iterTick pending r1 r2 n s) pending r1 r2

/-- Interior of the grid as the specification words it for fruit
respawn: 1 ≤ x ≤ width-2 and 1 ≤ y ≤ height-2. -/
def inInterior (p : Int × Int) : Prop :=
  1 ≤ p.1 ∧ p.1 ≤ width - 2 ∧ 1 ≤ p.2 ∧ p.2 ≤ height - 2

instance (p : Int × Int) : Decidable (inInterior p) := by
  unfold inInterior; exact inferInstance

/-- The glyph printed for one cell (snake.cpp lines 79-93): border
first, then fruit, then the first matching snake segment (the loop with
the printed flag prints one O on any match), else blank. -/
def cellChar (s : GameState) (x y : Int) : Char :=
  if x = 0 ∨ x = width - 1 ∨ y = 0 ∨ y = height - 1 then '#'
  else if x = s.fruit.1 ∧ y = s.fruit.2 then 'F'
  else if s.snake.any (fun q => decide (q.1 = x) && decide (q.2 = y)) then 'O'
  else ' '

/-- One row of the board: the inner x loop of the renderer. -/
def rowString (s : GameState) (y : Int) : String :=
  String.mk ((List.range width.toNat).map fun n => cellChar s (n : Int) y)

/-- The grid part of a frame: the outer y loop, each row followed by
the newline of snake.cpp line 95. -/
def boardString (s : GameState) : String :=
  String.join ((List.range height.toNat).map fun n => rowString s (n : Int) ++ "\n")

/-- Everything one tick writes to the screen (snake.cpp lines 76-97):
the clear-screen escape sequence, the grid, and the instruction
trailer line. -/
def renderFrame (s : GameState) : String :=
  "\x1b[H\x1b[2J" ++ boardString s ++ "Use arrow keys to move. Ctrl+C to quit.\n"

/-- The frame as the specification words it: row-major over the cells
(y outer, x inner), wall glyph on the outer ring, else fruit glyph on
the fruit's Position, else snake glyph on any snake Position, else the
empty glyph; newline-terminated rows and a fixed trailer line. -/
def cellCharSpec (s : GameState) (x y : Int) : Char :=
  if x = 0 ∨ x = width - 1 ∨ y = 0 ∨ y = height - 1 then '#'
  else if (x, y) = s.fruit then 'F'
  else if (x, y) ∈ s.snake then 'O'
  else ' '

/-- Frame assembly following the specification's words, over
cellCharSpec. -/
def renderFrameSpec (s : GameState) : String :=
  "\x1b[H\x1b[2J" ++
    String.join ((List.range height.toNat).map fun ny =>
      String.mk ((List.range width.toNat).map fun nx =>
        cellCharSpec s (nx : Int) (ny : Int)) ++ "\n") ++
    "Use arrow keys to move. Ctrl+C to quit.\n"

/-- Input decoding as the specification words it: an escape sequence
ESC-bracket-code with code among A, B, C, D sets the Direction to Up,
Down, Right, Left (codes 3, 4, 2, 1); anything else, or no pending
input, leaves the Direction unchanged. -/
def decodeInputSpec (dir : Int) (pending : List Char) : Int :=
  match pending with
  | a :: b :: c :: _ =>
    if a = '\x1b' ∧ b = '[' then
      if c = 'A' then 3
      else if c = 'B' then 4
      else if c = 'C' then 2
      else if c = 'D' then 1
      else dir
    else dir
  | _ => dir

/-- The game loop (snake.cpp lines 72-156) over an explicit list of
per-tick environments (pending input bytes and the two random draws a
tick may consume): while gameOver is false, draw the frame, then run
the tick; the loop condition is re-checked before every iteration.
The result collects the frames written and the state after the loop.
The list stands for the ticks the run has fuel for: an empty remainder
means the run is cut off, not that the loop exited. -/
def runLoop : GameState → List (List Char × Nat × Nat) → List String × GameState
  | s, [] => ([], s)
  | s, e :: rest =>
    if s.gameOver then ([], s)
    else
      let r := runLoop (stepTick s e.1 e.2.1 e.2.2) rest
      (renderFrame s :: r.1, r.2)

/-- The full screen output of a run: the frames the loop wrote,
followed by the one Game Over message of snake.cpp line 160 when the
loop has exited (gameOver reached within the supplied environments). -/
def loopOutput (s : GameState) (env : List (List Char × Nat × Nat)) : List String :=
  (runLoop s env).1 ++ (if (runLoop s env).2.gameOver then ["Game Over!"] else [])

end Snake

namespace Snake

theorem stepTick_gameOver (s : GameState) (pending : List Char) (r1 r2 : Nat) :
    (stepTick s pending r1 r2).gameOver =
      (s.gameOver || decide (wallHit (newHeadOf s pending))
        || decide (newHeadOf s pending ∈ s.snake)) := by
  simp only [stepTick, newHeadOf]
  split <;> rfl

theorem stepTick_snake (s : GameState) (pending : List Char) (r1 r2 : Nat) :
    (stepTick s pending r1 r2).snake =
      (if newHeadOf s pending = s.fruit
        then newHeadOf s pending :: s.snake
        else (newHeadOf s pending :: s.snake).dropLast) := by
  simp only [stepTick, newHeadOf]
  split <;> simp_all

theorem stepTick_fruit (s : GameState) (pending : List Char) (r1 r2 : Nat) :
    (stepTick s pending r1 r2).fruit =
      (if newHeadOf s pending = s.fruit then newFruit r1 r2 else s.fruit) := by
  simp only [stepTick, newHeadOf]
  split <;> simp_all

/-- C5: on a tick on which the new head equals the fruit position, the
snake's length grows by exactly one and the new head (the first
element of the post-tick snake) is the prior fruit position. -/
theorem growth_on_eat (s : GameState) (pending : List Char) (r1 r2 : Nat)
    (he : newHeadOf s pending = s.fruit) :
    (stepTick s pending r1 r2).snake.length = s.snake.length + 1 ∧
      (stepTick s pending r1 r2).snake.headI = s.fruit := by
  rw [stepTick_snake, if_pos he]
  exact ⟨by simp, by simp [he]⟩

/-- Witness for C5 at a concrete eating tick: snake at (10,10) moving
right onto fruit at (11,10). -/
theorem growth_on_eat_witness :
    (stepTick ⟨[(10, 10)], 2, (11, 10), false⟩ [] 0 0).snake.length =
        (1 : Nat) + 1 ∧
      (stepTick ⟨[(10, 10)], 2, (11, 10), false⟩ [] 0 0).snake.headI = (11, 10) :=
  growth_on_eat ⟨[(10, 10)], 2, (11, 10), false⟩ [] 0 0 (by decide)

/-- C6: on a tick on which the new head differs from the fruit
position, the snake's length is unchanged: the prepended head is paid
for by the popped tail. -/
theorem length_on_no_eat (s : GameState) (pending : List Char) (r1 r2 : Nat)
    (hne : newHeadOf s pending ≠ s.fruit) :
    (stepTick s pending r1 r2).snake.length = s.snake.length := by
  rw [stepTick_snake, if_neg hne]
  simp

/-- Witness for C6 at a concrete non-eating tick: snake at (10,10)
moving right with the fruit elsewhere. -/
theorem length_on_no_eat_witness :
    (stepTick ⟨[(10, 10)], 2, (5, 5), false⟩ [] 0 0).snake.length = 1 :=
  length_on_no_eat ⟨[(10, 10)], 2, (5, 5), false⟩ [] 0 0 (by decide)

theorem reachable_iterTick (pending : List Char) (r1 r2 : Nat) (n : Nat) (s : GameState)
    (hs : Reachable s)
    (halive : ∀ k, k < n → (iterTick pending r1 r2 k s).gameOver = false) :
    Reachable (iterTick pending r1 r2 n s) := by
  induction n with
  | zero => exact hs
  | succ n ih =>
    exact Reachable.step _ pending r1 r2
      (ih fun k hk => halive k (Nat.lt_succ_of_lt hk))
      (halive n (Nat.lt_succ_self n))

/-- C3 amended: a wall hit by the new head always sets gameOver, and on
ticks whose new head does not also collide with the body, gameOver
becomes true exactly when the new head lies on or outside the outer
ring. -/
theorem gameOver_wall (s : GameState) (pending : List Char) (r1 r2 : Nat)
    (h0 : s.gameOver = false) :
    (wallHit (newHeadOf s pending) → (stepTick s pending r1 r2).gameOver = true) ∧
      (newHeadOf s pending ∉ s.snake →
        ((stepTick s pending r1 r2).gameOver = true ↔ wallHit (newHeadOf s pending))) := by
  rw [stepTick_gameOver, h0]
  constructor
  · intro hw; simp [hw]
  · intro hm; simp [hm]

/-- Witness for the amended C3 at a concrete tick: snake at (1,10)
moving left into the wall. -/
theorem gameOver_wall_witness :
    (wallHit (newHeadOf ⟨[(1, 10)], 1, (5, 5), false⟩ []) →
        (stepTick ⟨[(1, 10)], 1, (5, 5), false⟩ [] 0 0).gameOver = true) ∧
      (newHeadOf ⟨[(1, 10)], 1, (5, 5), false⟩ [] ∉
          (⟨[(1, 10)], 1, (5, 5), false⟩ : GameState).snake →
        ((stepTick ⟨[(1, 10)], 1, (5, 5), false⟩ [] 0 0).gameOver = true ↔
          wallHit (newHeadOf ⟨[(1, 10)], 1, (5, 5), false⟩ []))) :=
  gameOver_wall ⟨[(1, 10)], 1, (5, 5), false⟩ [] 0 0 rfl

/-- Counterexample to C3 as stated: a reachable, live state (reached by
eating one fruit, then reversing into the neck) whose tick sets
gameOver although the new head is strictly inside the outer ring. -/
theorem gameOver_wall_counterexample :
    Reachable ⟨[(11, 10), (10, 10)], 2, (17, 3), false⟩ ∧
      (⟨[(11, 10), (10, 10)], 2, (17, 3), false⟩ : GameState).gameOver = false ∧
      (stepTick ⟨[(11, 10), (10, 10)], 2, (17, 3), false⟩ ['\x1b', '[', 'D'] 0 0).gameOver
        = true ∧
      ¬ wallHit (newHeadOf ⟨[(11, 10), (10, 10)], 2, (17, 3), false⟩ ['\x1b', '[', 'D']) := by
  refine ⟨?_, rfl, by decide, by decide⟩
  have h0 : stepTick (initState 11 10) [] 17 3 =
      (⟨[(11, 10), (10, 10)], 2, (17, 3), false⟩ : GameState) := by decide
  exact h0 ▸ Reachable.step _ [] 17 3 (Reachable.init 11 10) rfl

/-- C4 amended: a self collision (new head matching an element at index
at least 1 of the extended snake, i.e. a member of the pre-tick snake)
always sets gameOver, and on ticks whose new head does not also hit the
wall, gameOver becomes true exactly on self collision. -/
theorem gameOver_self (s : GameState) (pending : List Char) (r1 r2 : Nat)
    (h0 : s.gameOver = false) :
    (newHeadOf s pending ∈ s.snake → (stepTick s pending r1 r2).gameOver = true) ∧
      (¬ wallHit (newHeadOf s pending) →
        ((stepTick s pending r1 r2).gameOver = true ↔ newHeadOf s pending ∈ s.snake)) := by
  rw [stepTick_gameOver, h0]
  constructor
  · intro hm; simp [hm]
  · intro hw; simp [hw]

/-- Witness for the amended C4 at a concrete tick: a two-segment snake
reversing into its own neck in the interior. -/
theorem gameOver_self_witness :
    (newHeadOf ⟨[(11, 10), (10, 10)], 2, (17, 3), false⟩ ['\x1b', '[', 'D'] ∈
        (⟨[(11, 10), (10, 10)], 2, (17, 3), false⟩ : GameState).snake →
      (stepTick ⟨[(11, 10), (10, 10)], 2, (17, 3), false⟩ ['\x1b', '[', 'D'] 1 1).gameOver
        = true) ∧
      (¬ wallHit (newHeadOf ⟨[(11, 10), (10, 10)], 2, (17, 3), false⟩ ['\x1b', '[', 'D']) →
        ((stepTick ⟨[(11, 10), (10, 10)], 2, (17, 3), false⟩ ['\x1b', '[', 'D'] 1 1).gameOver
            = true ↔
          newHeadOf ⟨[(11, 10), (10, 10)], 2, (17, 3), false⟩ ['\x1b', '[', 'D'] ∈
            (⟨[(11, 10), (10, 10)], 2, (17, 3), false⟩ : GameState).snake)) :=
  gameOver_self ⟨[(11, 10), (10, 10)], 2, (17, 3), false⟩ ['\x1b', '[', 'D'] 1 1 rfl

/-- Counterexample to C4 as stated: a reachable, live state (eight
ticks straight to the right from the start) whose tick sets gameOver by
running into the wall although the new head matches no element of the
snake at index at least 1. -/
theorem gameOver_self_counterexample :
    Reachable ⟨[(18, 10)], 2, (5, 5), false⟩ ∧
      (⟨[(18, 10)], 2, (5, 5), false⟩ : GameState).gameOver = false ∧
      (stepTick ⟨[(18, 10)], 2, (5, 5), false⟩ [] 5 5).gameOver = true ∧
      ¬ (newHeadOf ⟨[(18, 10)], 2, (5, 5), false⟩ [] ∈
          (⟨[(18, 10)], 2, (5, 5), false⟩ : GameState).snake) := by
  refine ⟨?_, rfl, by decide, by decide⟩
  have h0 : iterTick [] 5 5 8 (initState 5 5) =
      (⟨[(18, 10)], 2, (5, 5), false⟩ : GameState) := by decide
  exact h0 ▸ reachable_iterTick [] 5 5 8 (initState 5 5) (Reachable.init 5 5) (by decide)

theorem nodup_step (s : GameState) (pending : List Char) (r1 r2 : Nat)
    (hnd : s.snake.Nodup) (h2 : (stepTick s pending r1 r2).gameOver = false) :
    (stepTick s pending r1 r2).snake.Nodup := by
  rw [stepTick_gameOver] at h2
  simp only [Bool.or_eq_false_iff, decide_eq_false_iff_not] at h2
  obtain ⟨⟨-, -⟩, hmem⟩ := h2
  rw [stepTick_snake]
  have hcons : (newHeadOf s pending :: s.snake).Nodup := List.nodup_cons.mpr ⟨hmem, hnd⟩
  split
  · exact hcons
  · exact hcons.sublist (List.dropLast_sublist _)

/-- C7: in every reachable state the game has survived (gameOver still
false at the end of the tick), the snake body has no repeated
position. -/
theorem reachable_nodup (s : GameState) (hr : Reachable s) (h : s.gameOver = false) :
    s.snake.Nodup := by
  revert h
  induction hr with
  | init r1 r2 => intro h; simp [initState]
  | step s pending r1 r2 hs halive ih => intro h; exact nodup_step s pending r1 r2 (ih halive) h

/-- Witness for C7 at the start state. -/
theorem reachable_nodup_witness : (initState 0 0).snake.Nodup :=
  reachable_nodup (initState 0 0) (Reachable.init 0 0) rfl

/-- C10: on a tick that sets gameOver, the update still completes in
full: the new head is prepended, and the fruit branch (grow and
respawn) or the tail pop happens exactly as on any other tick. -/
theorem update_completes (s : GameState) (pending : List Char) (r1 r2 : Nat)
    (h0 : s.gameOver = false) (h1 : (stepTick s pending r1 r2).gameOver = true) :
    (stepTick s pending r1 r2).snake =
        (if newHeadOf s pending = s.fruit
          then newHeadOf s pending :: s.snake
          else (newHeadOf s pending :: s.snake).dropLast) ∧
      (newHeadOf s pending = s.fruit →
        (stepTick s pending r1 r2).snake.length = s.snake.length + 1 ∧
          (stepTick s pending r1 r2).fruit = newFruit r1 r2) ∧
      (newHeadOf s pending ≠ s.fruit →
        (stepTick s pending r1 r2).snake = (newHeadOf s pending :: s.snake).dropLast ∧
          (stepTick s pending r1 r2).fruit = s.fruit) := by
  refine ⟨stepTick_snake s pending r1 r2, fun he => ⟨?_, ?_⟩, fun hne => ⟨?_, ?_⟩⟩
  · rw [stepTick_snake, if_pos he]; simp
  · rw [stepTick_fruit, if_pos he]
  · rw [stepTick_snake, if_neg hne]
  · rw [stepTick_fruit, if_neg hne]

/-- Witness for C10 at a concrete fatal tick: snake at (1,10) moving
left into the wall while the fruit is elsewhere. -/
theorem update_completes_witness :
    (stepTick ⟨[(1, 10)], 1, (15, 15), false⟩ [] 0 0).snake =
        (if newHeadOf ⟨[(1, 10)], 1, (15, 15), false⟩ [] =
            (⟨[(1, 10)], 1, (15, 15), false⟩ : GameState).fruit
          then newHeadOf ⟨[(1, 10)], 1, (15, 15), false⟩ [] ::
            (⟨[(1, 10)], 1, (15, 15), false⟩ : GameState).snake
          else (newHeadOf ⟨[(1, 10)], 1, (15, 15), false⟩ [] ::
            (⟨[(1, 10)], 1, (15, 15), false⟩ : GameState).snake).dropLast) ∧
      (newHeadOf ⟨[(1, 10)], 1, (15, 15), false⟩ [] =
          (⟨[(1, 10)], 1, (15, 15), false⟩ : GameState).fruit →
        (stepTick ⟨[(1, 10)], 1, (15, 15), false⟩ [] 0 0).snake.length = 1 + 1 ∧
          (stepTick ⟨[(1, 10)], 1, (15, 15), false⟩ [] 0 0).fruit = newFruit 0 0) ∧
      (newHeadOf ⟨[(1, 10)], 1, (15, 15), false⟩ [] ≠
          (⟨[(1, 10)], 1, (15, 15), false⟩ : GameState).fruit →
        (stepTick ⟨[(1, 10)], 1, (15, 15), false⟩ [] 0 0).snake =
            (newHeadOf ⟨[(1, 10)], 1, (15, 15), false⟩ [] ::
              (⟨[(1, 10)], 1, (15, 15), false⟩ : GameState).snake).dropLast ∧
          (stepTick ⟨[(1, 10)], 1, (15, 15), false⟩ [] 0 0).fruit = (15, 15)) :=
  update_completes ⟨[(1, 10)], 1, (15, 15), false⟩ [] 0 0 rfl (by decide)

/-- C1 amended: on an eating tick the snake keeps its new length (the
head stays prepended, no tail removal) and the replacement fruit is
(rand mod width, rand mod height): it ranges over the entire grid,
0 ≤ x ≤ width-1 and 0 ≤ y ≤ height-1, every such cell being reachable
by some pair of draws — not only over the interior — and nothing stops
it landing on the snake's body. -/
theorem fruit_respawn (s : GameState) (pending : List Char) (r1 r2 : Nat)
    (he : newHeadOf s pending = s.fruit) :
    (stepTick s pending r1 r2).snake = newHeadOf s pending :: s.snake ∧
      (stepTick s pending r1 r2).snake.length = s.snake.length + 1 ∧
      (stepTick s pending r1 r2).fruit = newFruit r1 r2 ∧
      0 ≤ (stepTick s pending r1 r2).fruit.1 ∧
      (stepTick s pending r1 r2).fruit.1 ≤ width - 1 ∧
      0 ≤ (stepTick s pending r1 r2).fruit.2 ∧
      (stepTick s pending r1 r2).fruit.2 ≤ height - 1 ∧
      (∀ q : Int × Int, 0 ≤ q.1 → q.1 ≤ width - 1 → 0 ≤ q.2 → q.2 ≤ height - 1 →
        ∃ a b : Nat, (stepTick s pending a b).fruit = q) := by
  have hfr : ∀ a b : Nat, (stepTick s pending a b).fruit = newFruit a b := fun a b => by
    rw [stepTick_fruit, if_pos he]
  have hsn : (stepTick s pending r1 r2).snake = newHeadOf s pending :: s.snake := by
    rw [stepTick_snake, if_pos he]
  have hfst : ∀ a b : Nat, (newFruit a b).1 = ((a % 20 : Nat) : Int) := fun a b => rfl
  have hsnd : ∀ a b : Nat, (newFruit a b).2 = ((b % 20 : Nat) : Int) := fun a b => rfl
  refine ⟨hsn, by rw [hsn]; simp, hfr r1 r2, ?_, ?_, ?_, ?_, ?_⟩
  · rw [hfr, hfst]; exact Int.natCast_nonneg _
  · rw [hfr, hfst]; simp only [width]; omega
  · rw [hfr, hsnd]; exact Int.natCast_nonneg _
  · rw [hfr, hsnd]; simp only [height]; omega
  · rintro ⟨qx, qy⟩ hx0 hx1 hy0 hy1
    refine ⟨qx.toNat, qy.toNat, ?_⟩
    simp only [width, height] at hx1 hy1
    rw [hfr]
    have hq : newFruit qx.toNat qy.toNat =
        (((qx.toNat % 20 : Nat) : Int), ((qy.toNat % 20 : Nat) : Int)) := rfl
    rw [hq, Prod.mk.injEq]
    constructor <;> omega

/-- Witness for the amended C1 at a concrete eating tick with draws
that put the new fruit on the border cell (0,0). -/
theorem fruit_respawn_witness :
    (stepTick ⟨[(10, 10)], 2, (11, 10), false⟩ [] 20 40).snake =
        newHeadOf ⟨[(10, 10)], 2, (11, 10), false⟩ [] ::
          (⟨[(10, 10)], 2, (11, 10), false⟩ : GameState).snake ∧
      (stepTick ⟨[(10, 10)], 2, (11, 10), false⟩ [] 20 40).snake.length = 1 + 1 ∧
      (stepTick ⟨[(10, 10)], 2, (11, 10), false⟩ [] 20 40).fruit = newFruit 20 40 ∧
      0 ≤ (stepTick ⟨[(10, 10)], 2, (11, 10), false⟩ [] 20 40).fruit.1 ∧
      (stepTick ⟨[(10, 10)], 2, (11, 10), false⟩ [] 20 40).fruit.1 ≤ width - 1 ∧
      0 ≤ (stepTick ⟨[(10, 10)], 2, (11, 10), false⟩ [] 20 40).fruit.2 ∧
      (stepTick ⟨[(10, 10)], 2, (11, 10), false⟩ [] 20 40).fruit.2 ≤ height - 1 ∧
      (∀ q : Int × Int, 0 ≤ q.1 → q.1 ≤ width - 1 → 0 ≤ q.2 → q.2 ≤ height - 1 →
        ∃ a b : Nat, (stepTick ⟨[(10, 10)], 2, (11, 10), false⟩ [] a b).fruit = q) :=
  fruit_respawn ⟨[(10, 10)], 2, (11, 10), false⟩ [] 20 40 (by decide)

/-- Counterexample to C1 as stated: an eating tick whose draws place
the replacement fruit at (0,0), on the wall ring, outside the interior
1 ≤ x ≤ width-2, 1 ≤ y ≤ height-2 the claim promises. -/
theorem fruit_respawn_counterexample :
    newHeadOf ⟨[(10, 10)], 2, (11, 10), false⟩ [] =
        (⟨[(10, 10)], 2, (11, 10), false⟩ : GameState).fruit ∧
      (stepTick ⟨[(10, 10)], 2, (11, 10), false⟩ [] 0 0).fruit = (0, 0) ∧
      ¬ inInterior (stepTick ⟨[(10, 10)], 2, (11, 10), false⟩ [] 0 0).fruit := by
  decide

/-- C8: the tick's input handling agrees everywhere with the
specification's description: ESC-bracket-A/B/C/D sets the direction to
up/down/right/left, every other pending input and the absence of input
leave the direction unchanged. -/
theorem decodeInput_eq_spec (dir : Int) (pending : List Char) :
    decodeInput dir pending = decodeInputSpec dir pending := by
  match pending with
  | [] => rfl
  | [c] => simp [decodeInput, decodeInputSpec]
  | [c, a] => simp [decodeInput, decodeInputSpec]
  | c :: a :: b :: r =>
    simp only [decodeInput, decodeInputSpec]
    by_cases hc : c = '\x1b'
    · by_cases ha : a = '['
      · simp [hc, ha]
      · simp [hc, ha]
    · simp [hc]

theorem any_coord_eq_mem (l : List (Int × Int)) (x y : Int) :
    (l.any fun q => decide (q.1 = x) && decide (q.2 = y)) = true ↔ (x, y) ∈ l := by
  rw [List.any_eq_true]
  constructor
  · rintro ⟨⟨qx, qy⟩, hql, hq⟩
    simp only [Bool.and_eq_true, decide_eq_true_eq] at hq
    obtain ⟨h1, h2⟩ := hq
    subst h1; subst h2
    exact hql
  · intro h
    exact ⟨(x, y), h, by simp⟩

theorem cellChar_eq_spec (s : GameState) (x y : Int) :
    cellChar s x y = cellCharSpec s x y := by
  unfold cellChar cellCharSpec
  by_cases hw : x = 0 ∨ x = width - 1 ∨ y = 0 ∨ y = height - 1
  · rw [if_pos hw, if_pos hw]
  · rw [if_neg hw, if_neg hw]
    by_cases hf : x = s.fruit.1 ∧ y = s.fruit.2
    · rw [if_pos hf, if_pos (Prod.ext_iff.mpr hf)]
    · rw [if_neg hf, if_neg (fun h => hf (Prod.ext_iff.mp h))]
      by_cases hm : (x, y) ∈ s.snake
      · rw [if_pos ((any_coord_eq_mem s.snake x y).mpr hm), if_pos hm]
      · rw [if_neg (fun h => hm ((any_coord_eq_mem s.snake x y).mp h)), if_neg hm]

/-- C9: the frame the code writes equals, for every state, the frame
the specification describes: one glyph per cell in row-major order
with precedence wall, fruit, snake, empty; newline-terminated rows and
the fixed trailer line. -/
theorem renderFrame_eq_spec (s : GameState) : renderFrame s = renderFrameSpec s := by
  simp only [renderFrame, renderFrameSpec, boardString, rowString, cellChar_eq_spec]

theorem runLoop_of_gameOver (s : GameState) (env : List (List Char × Nat × Nat))
    (h : s.gameOver = true) : runLoop s env = ([], s) := by
  cases env with
  | nil => rfl
  | cons e rest => simp [runLoop, h]

/-- C2 amended: when a tick turns gameOver on, the loop exits
immediately after that tick, no matter what environments remain; the
one final render happened at the top of that tick and shows the state
entering the tick (the pre-collision state: the fatal move itself is
never rendered); and exactly one Game Over message follows the frames
after loop exit. -/
theorem loop_exit (s : GameState) (e : List Char × Nat × Nat)
    (rest : List (List Char × Nat × Nat))
    (h0 : s.gameOver = false) (h1 : (stepTick s e.1 e.2.1 e.2.2).gameOver = true) :
    runLoop s (e :: rest) = ([renderFrame s], stepTick s e.1 e.2.1 e.2.2) ∧
      loopOutput s (e :: rest) = [renderFrame s, "Game Over!"] ∧
      (loopOutput s (e :: rest)).count "Game Over!" = 1 := by
  have hstop : runLoop (stepTick s e.1 e.2.1 e.2.2) rest =
      ([], stepTick s e.1 e.2.1 e.2.2) :=
    runLoop_of_gameOver _ rest h1
  have hrun : runLoop s (e :: rest) = ([renderFrame s], stepTick s e.1 e.2.1 e.2.2) := by
    simp [runLoop, h0, hstop]
  have hne : renderFrame s ≠ "Game Over!" := by
    intro h
    have hhead : (renderFrame s).data.head? = some '\x1b' := rfl
    rw [h] at hhead
    exact absurd hhead (by decide)
  refine ⟨hrun, ?_, ?_⟩
  · simp [loopOutput, hrun, h1]
  · simp [loopOutput, hrun, h1, List.count_cons, hne]

/-- Witness for the amended C2 at a concrete fatal tick: snake at
(1,10) walking left into the wall with one tick of environment left
over. -/
theorem loop_exit_witness :
    runLoop ⟨[(1, 10)], 1, (5, 5), false⟩ [([], 0, 0), ([], 0, 0)] =
        ([renderFrame ⟨[(1, 10)], 1, (5, 5), false⟩],
          stepTick ⟨[(1, 10)], 1, (5, 5), false⟩ [] 0 0) ∧
      loopOutput ⟨[(1, 10)], 1, (5, 5), false⟩ [([], 0, 0), ([], 0, 0)] =
        [renderFrame ⟨[(1, 10)], 1, (5, 5), false⟩, "Game Over!"] ∧
      (loopOutput ⟨[(1, 10)], 1, (5, 5), false⟩ [([], 0, 0), ([], 0, 0)]).count
        "Game Over!" = 1 :=
  loop_exit ⟨[(1, 10)], 1, (5, 5), false⟩ ([], 0, 0) [([], 0, 0)] rfl (by decide)

set_option maxRecDepth 100000 in
/-- Counterexample to C2 as stated: a run that ends in a wall
collision whose final render is the frame of the state entering the
fatal tick, which differs from the rendering of the collision state,
so the final render does not show the collision frame. -/
theorem loop_exit_counterexample :
    (runLoop ⟨[(1, 10)], 1, (5, 5), false⟩ [([], 0, 0)]).2.gameOver = true ∧
      (runLoop ⟨[(1, 10)], 1, (5, 5), false⟩ [([], 0, 0)]).1.getLast? =
        some (renderFrame ⟨[(1, 10)], 1, (5, 5), false⟩) ∧
      renderFrame ⟨[(1, 10)], 1, (5, 5), false⟩ ≠
        renderFrame (runLoop ⟨[(1, 10)], 1, (5, 5), false⟩ [([], 0, 0)]).2 := by
  refine ⟨by decide, by decide, by decide⟩

end Snake
